import Mathlib

/-!
A verification development for a small Win32/WinRT webview embedding
(`src/api/webview.cpp`, `src/api/webview.h`).  The C++ source is shallowly
embedded: the UI-thread event loop of `webview_start`, the cross-thread
dispatch queue (`webview_dispatch` / `webview_exit`), the blocking async
bridge `block`, the `WndProc` window-message handler, and the
`ContainsFullScreenElementChanged` closure are all modelled as pure Lean
functions over explicit state.  Machine pointers become `Nat` identifiers,
window coordinates become `Int`, and 32-bit style words become `Nat`
masked to 32 bits where the code masks.
-/

/-- `WM_APP`, aliased in the source as `WM_APP_DISPATCH` (webview.cpp line 16). -/
def WM_APP_DISPATCH : Nat := 0x8000

/-- The `Dispatch` struct (webview.cpp lines 47-51): an opaque data pointer and a
function pointer, both modelled as `Nat` identifiers. -/
structure Dispatch where
  data : Nat
  func : Nat
  deriving DecidableEq, Repr

/-- Window messages relevant to `WndProc` (webview.cpp lines 132-161). -/
inductive WinMsg where
  | close
  | destroy
  | size
  | getMinMaxInfo
  | other (code : Nat)
  deriving DecidableEq, Repr

/-- A retrieved message.  `window` models `msg.hwnd != nullptr`; `thread` models a
message posted with `PostThreadMessage` (`msg.hwnd == nullptr`), carrying the
message code and, as `id`, the `lParam` pointer to a heap-allocated `Dispatch`
whose contents are `item`. -/
inductive Msg where
  | window (hwnd : Nat) (wm : WinMsg)
  | thread (message : Nat) (id : Nat) (item : Dispatch)
  deriving DecidableEq, Repr

/-- One `GetMessage` outcome in the `webview_start` loop (webview.cpp lines
188-193): a retrieved message (`res > 0`), the quit signal (`res == 0`, from
`PostQuitMessage`), or retrieval failure (`res == -1`). -/
inductive GMsg where
  | msg (m : Msg)
  | quitMsg
  | errMsg
  deriving DecidableEq, Repr

/-- Observable actions of one iteration of the `webview_start` loop:
dispatching a window message to its window procedure, executing a dispatch
item by invoking `func(data)`, and releasing (`delete`) the item. -/
inductive LoopEvent where
  | winDispatch (hwnd : Nat) (wm : WinMsg)
  | exec (id : Nat) (item : Dispatch)
  | free (id : Nat)
  deriving DecidableEq, Repr

/-- Why the `webview_start` loop returned. -/
inductive ExitReason where
  | quitReceived
  | retrievalError
  deriving DecidableEq, Repr

/-- Body of one loop iteration on a retrieved message (webview.cpp lines
195-210): a message with a window target is translated and dispatched; a
window-less message is executed inline as a dispatch entry when its code is
`WM_APP_DISPATCH` (`func(data)` then `delete`), and ignored otherwise. -/
def processMsg : Msg → List LoopEvent
  | Msg.window hwnd wm => [LoopEvent.winDispatch hwnd wm]
  | Msg.thread message id item =>
      if message = WM_APP_DISPATCH then [LoopEvent.exec id item, LoopEvent.free id]
      else []

/-- The retrieval loop of `webview_start` (webview.cpp lines 188-211) run over a
finite queue of `GetMessage` outcomes.  `none` as first component means the
queue was exhausted with the loop still running (a real `GetMessage` would
block); `some r` means the loop returned, for reason `r`: `res == 0` (quit)
ends the `while`, `res == -1` takes the `break`. -/
def startLoop : List GMsg → Option ExitReason × List LoopEvent
  | [] => (none, [])
  | GMsg.quitMsg :: _ => (some ExitReason.quitReceived, [])
  | GMsg.errMsg :: _ => (some ExitReason.retrievalError, [])
  | GMsg.msg m :: rest =>
      let r := startLoop rest
      (r.1, processMsg m ++ r.2)

/-- `webview_dispatch` (webview.cpp lines 214-221): allocates a `Dispatch`
(fresh address `id`) and posts it to the UI thread's queue as a
`WM_APP_DISPATCH` thread message; posting appends to the queue. -/
def webview_dispatch (q : List GMsg) (id : Nat) (data func : Nat) : List GMsg :=
  q ++ [GMsg.msg (Msg.thread WM_APP_DISPATCH id ⟨data, func⟩)]

/-- `webview_exit` (webview.cpp lines 223-226): `PostQuitMessage` makes the next
retrieval after the pending messages report the quit signal. -/
def webview_exit (q : List GMsg) : List GMsg :=
  q ++ [GMsg.quitMsg]

/-- The dispatch items posted in a queue, in arrival (FIFO) order: the
window-less `WM_APP_DISPATCH` messages. -/
def postedSeq : List GMsg → List (Nat × Dispatch)
  | [] => []
  | GMsg.msg (Msg.thread message id item) :: rest =>
      if message = WM_APP_DISPATCH then (id, item) :: postedSeq rest else postedSeq rest
  | _ :: rest => postedSeq rest

/-- The dispatch items executed in an event trace, in execution order. -/
def execSeq : List LoopEvent → List (Nat × Dispatch)
  | [] => []
  | LoopEvent.exec id item :: rest => (id, item) :: execSeq rest
  | _ :: rest => execSeq rest

/-- The dispatch-item releases in an event trace, in order. -/
def freeSeq : List LoopEvent → List Nat
  | [] => []
  | LoopEvent.free id :: rest => id :: freeSeq rest
  | _ :: rest => freeSeq rest

/-- Checks that in a trace every `exec` is immediately followed by the `free`
of the same item, and no `free` occurs otherwise: each item is released
exactly once, right after its execution. -/
def execFreePaired : List LoopEvent → Bool
  | [] => true
  | LoopEvent.exec id _ :: LoopEvent.free j :: rest => id = j && execFreePaired rest
  | LoopEvent.exec _ _ :: _ => false
  | LoopEvent.free _ :: _ => false
  | LoopEvent.winDispatch _ _ :: rest => execFreePaired rest

/-- WinRT `AsyncStatus`; the code only tests against `Completed`
(webview.cpp line 23). -/
inductive AsyncStatus where
  | Started
  | Completed
  | Canceled
  | Error
  deriving DecidableEq, Repr

/-- An `IAsyncOperation`: its current status and the value `GetResults()`
yields once it completes. -/
structure IAsync (α : Type) where
  status : AsyncStatus
  results : α
  deriving DecidableEq, Repr

/-- One event serviced while `CoWaitForMultipleHandles` pumps: a native window
message, a dispatch-queue entry (a cross-thread call), input, or the firing of
the completion event handle that the `Completed` handler set
(webview.cpp line 26). -/
inductive WaitEvent where
  | winMessage (hwnd : Nat) (wm : WinMsg)
  | dispatchCall (id : Nat) (item : Dispatch)
  | input
  | signaled
  deriving DecidableEq, Repr

/-- Modelled from the spec: `CoWaitForMultipleHandles` is a platform primitive
not in `src/`; called with
`COWAIT_DISPATCH_WINDOW_MESSAGES | COWAIT_DISPATCH_CALLS | COWAIT_INPUTAVAILABLE`
and an `INFINITE` timeout (webview.cpp lines 29-31), it keeps servicing native
messages, dispatch-queue entries, and input until the waited handle is
signaled.  Returns the serviced events in order, the number of pump cycles,
and whether the signal fired (`false` means the event stream ended with the
wait still blocked). -/
def coWaitPump : List WaitEvent → List WaitEvent × Nat × Bool
  | [] => ([], 0, false)
  | WaitEvent.signaled :: _ => ([], 0, true)
  | e :: rest =>
      let r := coWaitPump rest
      (e :: r.1, r.2.1 + 1, r.2.2)

/-- The observable outcome of one `block` call: whether a completion event was
created and a `Completed` handler registered, how many pump cycles ran, which
events the wait serviced, whether the call returned at all, and the value it
returned (`none` while still blocked in the infinite wait). -/
structure BlockTrace (α : Type) where
  signalRegistered : Bool
  pumpCycles : Nat
  serviced : List WaitEvent
  returned : Bool
  result : Option α
  deriving DecidableEq, Repr

/-- The blocking async bridge `block` (webview.cpp lines 20-34): if the
operation's status is not `Completed`, create an event, register a `Completed`
handler that sets it, and pump via `coWaitPump` until it is signaled; then
return `GetResults()`.  `events` is the stream the wait would service. -/
def block (async : IAsync α) (events : List WaitEvent) : BlockTrace α :=
  if async.status = AsyncStatus.Completed then
    ⟨false, 0, [], true, some async.results⟩
  else
    let r := coWaitPump events
    ⟨true, r.2.1, r.1, r.2.2, if r.2.2 then some async.results else none⟩

/-- A Win32 `RECT`: edge coordinates (webview.cpp lines 38, 87, 103). -/
structure WRect where
  left : Int
  top : Int
  right : Int
  bottom : Int
  deriving DecidableEq, Repr

/-- A WinRT `Rect`: origin and extent, as built by `getClientRect`
(webview.cpp lines 40-44). -/
structure CRect where
  x : Int
  y : Int
  width : Int
  height : Int
  deriving DecidableEq, Repr

/-- `getClientRect` (webview.cpp lines 36-45) as a function of the `RECT`
that `GetClientRect` reported: `Rect(left, top, right - left, bottom - top)`.
(The Win32 contract makes the reported client rect's `left`/`top` zero.) -/
def getClientRect (client : WRect) : CRect :=
  ⟨client.left, client.top, client.right - client.left, client.bottom - client.top⟩

/-- The rectangle a `SetWindowPos(hwnd, HWND_TOP, x, y, cx, cy, ...)` call
gives the window. -/
def setWindowPosRect (x y cx cy : Int) : WRect :=
  ⟨x, y, x + cx, y + cy⟩

/-- `WS_CAPTION` (Win32, `0x00C00000`). -/
def WS_CAPTION : Nat := 0xC00000

/-- `WS_THICKFRAME` (Win32, `0x00040000`). -/
def WS_THICKFRAME : Nat := 0x40000

/-- The 32-bit complement mask for `~(WS_CAPTION | WS_THICKFRAME)`
(webview.cpp line 99). -/
def stripMask : Nat := 0xFFFFFFFF ^^^ (WS_CAPTION ||| WS_THICKFRAME)

/-- The mutable state captured by the `ContainsFullScreenElementChanged`
closure (webview.cpp lines 86-88): the cached flag, the saved window
rectangle, and the saved style word. -/
structure FsState where
  saved_fullscreen : Bool
  saved_rect : WRect
  saved_style : Nat
  deriving DecidableEq, Repr

/-- The closure's captured state at construction (webview.cpp lines 86-88):
flag `false`, `saved_rect` uninitialized (an arbitrary garbage value `g`),
`saved_style` the sentinel `-1` (as a 32-bit word, `0xFFFFFFFF`). -/
def initFsState (g : WRect) : FsState :=
  ⟨false, g, 0xFFFFFFFF⟩

/-- The window state the handler reads and writes: the window rectangle
(`GetWindowRect`/`SetWindowPos`) and the `GWL_STYLE` word
(`GetWindowLong`/`SetWindowLong`). -/
structure WindowSt where
  rect : WRect
  style : Nat
  deriving DecidableEq, Repr

/-- The `ContainsFullScreenElementChanged` handler (webview.cpp lines 89-125).
`fullscreen` is `sender.ContainsFullScreenElement()`; `monitor` is the
`rcMonitor` of the window's nearest monitor.  If the report equals the cached
flag, return unchanged; otherwise record the flag and either enter (save rect
and style, strip `WS_CAPTION | WS_THICKFRAME`, move to the monitor rectangle)
or exit (restore the saved style and rectangle). -/
def fullscreenChanged (monitor : WRect) (fullscreen : Bool)
    (s : FsState) (w : WindowSt) : FsState × WindowSt :=
  if fullscreen = s.saved_fullscreen then (s, w)
  else
    let s1 : FsState := { s with saved_fullscreen := fullscreen }
    if fullscreen then
      let s2 : FsState := { s1 with saved_rect := w.rect, saved_style := w.style }
      ( s2,
        { rect := setWindowPosRect monitor.left monitor.top
            (monitor.right - monitor.left) (monitor.bottom - monitor.top),
          style := s2.saved_style &&& stripMask } )
    else
      ( s1,
        { rect := setWindowPosRect s1.saved_rect.left s1.saved_rect.top
            (s1.saved_rect.right - s1.saved_rect.left)
            (s1.saved_rect.bottom - s1.saved_rect.top),
          style := s1.saved_style } )

/-- Runs the fullscreen handler over a sequence of
`ContainsFullScreenElement` reports. -/
def runFs (monitor : WRect) : List Bool → FsState × WindowSt → FsState × WindowSt
  | [], sw => sw
  | b :: bs, sw => runFs monitor bs (fullscreenChanged monitor b sw.1 sw.2)

/-- `webview_options` (webview.h lines 11-22).  The `message` and `closed`
callbacks are modelled by their invocations showing up as effects carrying the
`data` pointer. -/
structure webview_options where
  initial_width : Nat
  initial_height : Nat
  minimum_width : Nat
  minimum_height : Nat
  borderless : Bool
  debug : Bool
  data : Nat
  deriving DecidableEq, Repr

/-- The `ptMinTrackSize` field of a `MINMAXINFO` (webview.cpp lines 151-153). -/
structure MinMax where
  minTrackX : Int
  minTrackY : Int
  deriving DecidableEq, Repr

/-- Side effects a `WndProc` invocation performs: `DestroyWindow`, calling the
closed callback with the user data pointer, `delete window`, setting the
control's `Bounds`, or dereferencing a null handle pointer (undefined
behavior in the source). -/
inductive WndEffect where
  | destroyWindow
  | closedCallback (data : Nat)
  | deleteHandle
  | setBounds (b : CRect)
  | nullDeref
  deriving DecidableEq, Repr

/-- The outcome of one `WndProc` invocation: its effects in order, the
(possibly updated) `MINMAXINFO`, and whether it fell through to
`DefWindowProc`. -/
structure WndProcResult where
  effects : List WndEffect
  minmax : MinMax
  usedDefault : Bool
  deriving DecidableEq, Repr

/-- `WndProc` (webview.cpp lines 132-161).  `window` is the handle pointer read
from `GWLP_USERDATA` (`none` models null, before `SetWindowLongPtr` has run);
`client` is what `GetClientRect` reports; `mmi` is the `MINMAXINFO` behind
`lParam`.  `WM_CLOSE` destroys the window; `WM_DESTROY` runs the closed
callback on `opts.data` then deletes the handle; `WM_SIZE` sets the control
bounds to `getClientRect`; `WM_GETMINMAXINFO` writes the configured minimums
into `ptMinTrackSize` when the handle pointer is attached and otherwise falls
through to `DefWindowProc`, as does every other message. -/
def wndProc (window : Option webview_options) (msg : WinMsg)
    (client : WRect) (mmi : MinMax) : WndProcResult :=
  match msg with
  | WinMsg.close => ⟨[WndEffect.destroyWindow], mmi, false⟩
  | WinMsg.destroy =>
      match window with
      | some o => ⟨[WndEffect.closedCallback o.data, WndEffect.deleteHandle], mmi, false⟩
      | none => ⟨[WndEffect.nullDeref], mmi, false⟩
  | WinMsg.size =>
      match window with
      | some _ => ⟨[WndEffect.setBounds (getClientRect client)], mmi, false⟩
      | none => ⟨[WndEffect.nullDeref], mmi, false⟩
  | WinMsg.getMinMaxInfo =>
      match window with
      | some o => ⟨[], ⟨(o.minimum_width : Int), (o.minimum_height : Int)⟩, false⟩
      | none => ⟨[], mmi, true⟩
  | WinMsg.other _ => ⟨[], mmi, true⟩

theorem fullscreenChanged_noop (monitor : WRect) (b : Bool) (s : FsState) (w : WindowSt)
    (h : s.saved_fullscreen = b) : fullscreenChanged monitor b s w = (s, w) := by
  simp [fullscreenChanged, h]

theorem fullscreenChanged_enter (monitor : WRect) (s : FsState) (w : WindowSt)
    (h : s.saved_fullscreen = false) :
    fullscreenChanged monitor true s w =
      (⟨true, w.rect, w.style⟩,
       ⟨setWindowPosRect monitor.left monitor.top
          (monitor.right - monitor.left) (monitor.bottom - monitor.top),
        w.style &&& stripMask⟩) := by
  simp [fullscreenChanged, h]

theorem fullscreenChanged_exit (monitor : WRect) (s : FsState) (w : WindowSt)
    (h : s.saved_fullscreen = true) :
    fullscreenChanged monitor false s w =
      (⟨false, s.saved_rect, s.saved_style⟩,
       ⟨setWindowPosRect s.saved_rect.left s.saved_rect.top
          (s.saved_rect.right - s.saved_rect.left)
          (s.saved_rect.bottom - s.saved_rect.top),
        s.saved_style⟩) := by
  simp [fullscreenChanged, h]

theorem fullscreenChanged_flag_true (monitor : WRect) (s : FsState) (w : WindowSt) :
    (fullscreenChanged monitor true s w).1.saved_fullscreen = true := by
  by_cases h : s.saved_fullscreen = true
  · rw [fullscreenChanged_noop monitor true s w h]
    exact h
  · rw [fullscreenChanged_enter monitor s w (by simpa using h)]

theorem setWindowPosRect_roundtrip (r : WRect) :
    setWindowPosRect r.left r.top (r.right - r.left) (r.bottom - r.top) = r := by
  simp [setWindowPosRect]

/-- C4: two consecutive fullscreen-element-present notifications produce at most
one mutation: after a present notification the cached flag is true, a present
notification while the flag is already true changes nothing (the handler
returns before touching any style, rectangle, or saved state), and hence a
second consecutive present notification is the identity on both the captured
closure state and the window. -/
theorem fullscreen_present_idempotent (monitor : WRect) (s : FsState) (w : WindowSt) :
    (fullscreenChanged monitor true s w).1.saved_fullscreen = true ∧
    (∀ s1 w1, s1.saved_fullscreen = true → fullscreenChanged monitor true s1 w1 = (s1, w1)) ∧
    fullscreenChanged monitor true (fullscreenChanged monitor true s w).1
        (fullscreenChanged monitor true s w).2 =
      fullscreenChanged monitor true s w := by
  refine ⟨fullscreenChanged_flag_true monitor s w,
    fun s1 w1 h1 => fullscreenChanged_noop monitor true s1 w1 h1, ?_⟩
  rw [fullscreenChanged_noop monitor true _ _ (fullscreenChanged_flag_true monitor s w)]

/-- Witness for C4 at a concrete state and window. -/
theorem fullscreen_present_idempotent_witness :
    fullscreenChanged ⟨0, 0, 1920, 1080⟩ true
        (⟨true, ⟨1, 2, 3, 4⟩, 5⟩ : FsState) (⟨⟨10, 20, 30, 40⟩, 6⟩ : WindowSt) =
      ((⟨true, ⟨1, 2, 3, 4⟩, 5⟩ : FsState), (⟨⟨10, 20, 30, 40⟩, 6⟩ : WindowSt)) :=
  (fullscreen_present_idempotent ⟨0, 0, 1920, 1080⟩ ⟨true, ⟨1, 2, 3, 4⟩, 5⟩
    ⟨⟨10, 20, 30, 40⟩, 6⟩).2.1 ⟨true, ⟨1, 2, 3, 4⟩, 5⟩ ⟨⟨10, 20, 30, 40⟩, 6⟩ rfl

/-- C5: from a state with the cached flag false, a present notification followed
by a no-fullscreen-element notification restores the window rectangle and the
style word bit-for-bit to their pre-enter values and leaves the cached flag
false again. -/
theorem fullscreen_roundtrip (monitor : WRect) (s : FsState) (w : WindowSt)
    (h : s.saved_fullscreen = false) :
    ((fullscreenChanged monitor false (fullscreenChanged monitor true s w).1
        (fullscreenChanged monitor true s w).2).2.rect = w.rect ∧
     (fullscreenChanged monitor false (fullscreenChanged monitor true s w).1
        (fullscreenChanged monitor true s w).2).2.style = w.style) ∧
    (fullscreenChanged monitor false (fullscreenChanged monitor true s w).1
        (fullscreenChanged monitor true s w).2).1.saved_fullscreen = false := by
  rw [fullscreenChanged_enter monitor s w h]
  rw [fullscreenChanged_exit monitor _ _ rfl]
  exact ⟨⟨setWindowPosRect_roundtrip w.rect, rfl⟩, rfl⟩

/-- Witness for C5 at a concrete state and window. -/
theorem fullscreen_roundtrip_witness :
    ((fullscreenChanged ⟨0, 0, 1920, 1080⟩ false
        (fullscreenChanged ⟨0, 0, 1920, 1080⟩ true (initFsState ⟨9, 9, 9, 9⟩)
          ⟨⟨100, 50, 700, 450⟩, 0xCF0000⟩).1
        (fullscreenChanged ⟨0, 0, 1920, 1080⟩ true (initFsState ⟨9, 9, 9, 9⟩)
          ⟨⟨100, 50, 700, 450⟩, 0xCF0000⟩).2).2.rect = ⟨100, 50, 700, 450⟩ ∧
     (fullscreenChanged ⟨0, 0, 1920, 1080⟩ false
        (fullscreenChanged ⟨0, 0, 1920, 1080⟩ true (initFsState ⟨9, 9, 9, 9⟩)
          ⟨⟨100, 50, 700, 450⟩, 0xCF0000⟩).1
        (fullscreenChanged ⟨0, 0, 1920, 1080⟩ true (initFsState ⟨9, 9, 9, 9⟩)
          ⟨⟨100, 50, 700, 450⟩, 0xCF0000⟩).2).2.style = 0xCF0000) ∧
    (fullscreenChanged ⟨0, 0, 1920, 1080⟩ false
        (fullscreenChanged ⟨0, 0, 1920, 1080⟩ true (initFsState ⟨9, 9, 9, 9⟩)
          ⟨⟨100, 50, 700, 450⟩, 0xCF0000⟩).1
        (fullscreenChanged ⟨0, 0, 1920, 1080⟩ true (initFsState ⟨9, 9, 9, 9⟩)
          ⟨⟨100, 50, 700, 450⟩, 0xCF0000⟩).2).1.saved_fullscreen = false :=
  fullscreen_roundtrip ⟨0, 0, 1920, 1080⟩ (initFsState ⟨9, 9, 9, 9⟩)
    ⟨⟨100, 50, 700, 450⟩, 0xCF0000⟩ rfl

/-- C10: while the cached flag is false the restore branch is unreachable: a
no-fullscreen-element notification returns early and changes nothing, and any
sequence of such notifications from the closure's initial state (flag false,
garbage saved rectangle, sentinel saved style) leaves both the captured state
and the window untouched, so the uninitialized rectangle and the sentinel
style are never applied. -/
theorem fullscreen_restore_unreachable :
    (∀ (monitor : WRect) (s : FsState) (w : WindowSt), s.saved_fullscreen = false →
      fullscreenChanged monitor false s w = (s, w)) ∧
    (∀ (monitor g : WRect) (w : WindowSt) (bs : List Bool), (∀ b ∈ bs, b = false) →
      runFs monitor bs (initFsState g, w) = (initFsState g, w)) := by
  refine ⟨fun monitor s w h => fullscreenChanged_noop monitor false s w h, ?_⟩
  intro monitor g w bs hbs
  induction bs with
  | nil => rfl
  | cons b bs ih =>
      have hb : b = false := hbs b (List.mem_cons_self b bs)
      have hrest : ∀ b ∈ bs, b = false := fun x hx => hbs x (List.mem_cons_of_mem b hx)
      simp only [runFs, hb, fullscreenChanged_noop monitor false (initFsState g) w rfl]
      exact ih hrest

/-- Witness for C10 at a concrete garbage rectangle and window. -/
theorem fullscreen_restore_unreachable_witness :
    fullscreenChanged ⟨0, 0, 1920, 1080⟩ false (initFsState ⟨123, 456, 789, 0⟩)
        ⟨⟨10, 20, 30, 40⟩, 6⟩ = (initFsState ⟨123, 456, 789, 0⟩, ⟨⟨10, 20, 30, 40⟩, 6⟩) ∧
    runFs ⟨0, 0, 1920, 1080⟩ [false, false, false]
        (initFsState ⟨123, 456, 789, 0⟩, ⟨⟨10, 20, 30, 40⟩, 6⟩) =
      (initFsState ⟨123, 456, 789, 0⟩, ⟨⟨10, 20, 30, 40⟩, 6⟩) :=
  ⟨fullscreen_restore_unreachable.1 ⟨0, 0, 1920, 1080⟩ (initFsState ⟨123, 456, 789, 0⟩)
      ⟨⟨10, 20, 30, 40⟩, 6⟩ rfl,
   fullscreen_restore_unreachable.2 ⟨0, 0, 1920, 1080⟩ ⟨123, 456, 789, 0⟩
      ⟨⟨10, 20, 30, 40⟩, 6⟩ [false, false, false] (by decide)⟩

/-- C6: a resize notification with the handle pointer attached sets the
control's bounds to exactly the window's new client rectangle — origin (0, 0)
by the `GetClientRect` contract, extent the client width and height — performs
no other effect, and leaves the `MINMAXINFO` untouched. -/
theorem resize_sets_client_bounds (o : webview_options) (client : WRect) (mmi : MinMax)
    (h1 : client.left = 0) (h2 : client.top = 0) :
    wndProc (some o) WinMsg.size client mmi =
      ⟨[WndEffect.setBounds ⟨0, 0, client.right, client.bottom⟩], mmi, false⟩ := by
  simp [wndProc, getClientRect, h1, h2]

/-- Witness for C6 at a concrete configuration and client rectangle. -/
theorem resize_sets_client_bounds_witness :
    wndProc (some ⟨640, 480, 400, 300, false, false, 77⟩) WinMsg.size
        ⟨0, 0, 800, 600⟩ ⟨1, 2⟩ =
      ⟨[WndEffect.setBounds ⟨0, 0, 800, 600⟩], ⟨1, 2⟩, false⟩ :=
  resize_sets_client_bounds ⟨640, 480, 400, 300, false, false, 77⟩ ⟨0, 0, 800, 600⟩ ⟨1, 2⟩ rfl rfl

/-- C7: a size-constraint query processed with the handle pointer attached
reports minimum track sizes equal to the Configuration's minimum width and
height, with no other effect; in particular a configuration with
`minimum_width = 400, minimum_height = 300` reports exactly (400, 300). -/
theorem minmax_reports_config_minimums (o : webview_options) (client : WRect) (mmi : MinMax) :
    wndProc (some o) WinMsg.getMinMaxInfo client mmi =
      ⟨[], ⟨(o.minimum_width : Int), (o.minimum_height : Int)⟩, false⟩ ∧
    wndProc (some ⟨o.initial_width, o.initial_height, 400, 300, o.borderless, o.debug, o.data⟩)
        WinMsg.getMinMaxInfo client mmi = ⟨[], ⟨400, 300⟩, false⟩ := by
  constructor <;> simp [wndProc]

/-- C8: processing the native destroy notification invokes the closed callback
with the Configuration's user data pointer and then — strictly after — deletes
the WebviewHandle, each exactly once; and `deleteHandle` occurs on no other
message, so this is the sole release path. -/
theorem destroy_closes_then_deletes :
    (∀ (o : webview_options) (client : WRect) (mmi : MinMax),
      wndProc (some o) WinMsg.destroy client mmi =
        ⟨[WndEffect.closedCallback o.data, WndEffect.deleteHandle], mmi, false⟩) ∧
    (∀ (window : Option webview_options) (msg : WinMsg) (client : WRect) (mmi : MinMax),
      WndEffect.deleteHandle ∈ (wndProc window msg client mmi).effects → msg = WinMsg.destroy) := by
  refine ⟨fun o client mmi => rfl, ?_⟩
  intro window msg client mmi hmem
  cases msg with
  | close => simp [wndProc] at hmem
  | destroy => rfl
  | size => cases window <;> simp [wndProc] at hmem
  | getMinMaxInfo => cases window <;> simp [wndProc] at hmem
  | other code => simp [wndProc] at hmem

/-- Witness for C8 at a concrete configuration. -/
theorem destroy_closes_then_deletes_witness :
    wndProc (some ⟨640, 480, 400, 300, false, false, 77⟩) WinMsg.destroy
        ⟨0, 0, 1, 1⟩ ⟨1, 2⟩ =
      ⟨[WndEffect.closedCallback 77, WndEffect.deleteHandle], ⟨1, 2⟩, false⟩ ∧
    WinMsg.destroy = WinMsg.destroy :=
  ⟨destroy_closes_then_deletes.1 ⟨640, 480, 400, 300, false, false, 77⟩ ⟨0, 0, 1, 1⟩ ⟨1, 2⟩,
   destroy_closes_then_deletes.2 (some ⟨640, 480, 400, 300, false, false, 77⟩) WinMsg.destroy
      ⟨0, 0, 1, 1⟩ ⟨1, 2⟩ (by decide)⟩

/-- C2: when the operation's status is already `Completed`, `block` returns
`GetResults()` immediately: no completion event is created, no `Completed`
handler is registered, no wait is entered, and zero pump cycles run. -/
theorem block_completed_immediate {α : Type} (async : IAsync α) (events : List WaitEvent)
    (h : async.status = AsyncStatus.Completed) :
    block async events = ⟨false, 0, [], true, some async.results⟩ := by
  simp [block, h]

/-- Witness for C2 at a concrete completed operation. -/
theorem block_completed_immediate_witness :
    block (⟨AsyncStatus.Completed, 42⟩ : IAsync Nat)
        [WaitEvent.input, WaitEvent.dispatchCall 1 ⟨2, 3⟩, WaitEvent.signaled] =
      ⟨false, 0, [], true, some 42⟩ :=
  block_completed_immediate (⟨AsyncStatus.Completed, 42⟩ : IAsync Nat)
    [WaitEvent.input, WaitEvent.dispatchCall 1 ⟨2, 3⟩, WaitEvent.signaled] rfl

theorem coWaitPump_signaled (l : List WaitEvent) (h : WaitEvent.signaled ∈ l) :
    (coWaitPump l).2.2 = true := by
  induction l with
  | nil => cases h
  | cons e rest ih =>
      cases e with
      | signaled => rfl
      | winMessage hwnd wm =>
          simp only [coWaitPump]
          exact ih (by simpa using h)
      | dispatchCall id item =>
          simp only [coWaitPump]
          exact ih (by simpa using h)
      | input =>
          simp only [coWaitPump]
          exact ih (by simpa using h)

theorem coWaitPump_reaches (pre : List WaitEvent) (e : WaitEvent) (post : List WaitEvent)
    (hpre : WaitEvent.signaled ∉ pre) (he : e ≠ WaitEvent.signaled)
    (hpost : WaitEvent.signaled ∈ post) :
    e ∈ (coWaitPump (pre ++ e :: post)).1 ∧ (coWaitPump (pre ++ e :: post)).2.2 = true := by
  induction pre with
  | nil =>
      cases e with
      | signaled => exact absurd rfl he
      | winMessage hwnd wm =>
          simp only [List.nil_append, coWaitPump]
          exact ⟨List.mem_cons_self _ _, coWaitPump_signaled post hpost⟩
      | dispatchCall id item =>
          simp only [List.nil_append, coWaitPump]
          exact ⟨List.mem_cons_self _ _, coWaitPump_signaled post hpost⟩
      | input =>
          simp only [List.nil_append, coWaitPump]
          exact ⟨List.mem_cons_self _ _, coWaitPump_signaled post hpost⟩
  | cons p pre ih =>
      have hp : p ≠ WaitEvent.signaled := fun hc => hpre (hc ▸ List.mem_cons_self p pre)
      have hpre2 : WaitEvent.signaled ∉ pre := fun hc => hpre (List.mem_cons_of_mem p hc)
      have ihr := ih hpre2
      cases p with
      | signaled => exact absurd rfl hp
      | winMessage hwnd wm =>
          simp only [List.cons_append, coWaitPump]
          exact ⟨List.mem_cons_of_mem _ ihr.1, ihr.2⟩
      | dispatchCall id item =>
          simp only [List.cons_append, coWaitPump]
          exact ⟨List.mem_cons_of_mem _ ihr.1, ihr.2⟩
      | input =>
          simp only [List.cons_append, coWaitPump]
          exact ⟨List.mem_cons_of_mem _ ihr.1, ihr.2⟩

/-- C3: when the operation is still pending, the wait entered by `block` keeps
servicing events; a dispatch-queue entry that arrives before the completion
signal fires is serviced during the wait, and once the signal fires (here: it
occurs later in the stream) `block` returns with the operation's result. -/
theorem block_pending_services_dispatch {α : Type} (async : IAsync α)
    (pre post : List WaitEvent) (id : Nat) (item : Dispatch)
    (hs : async.status ≠ AsyncStatus.Completed)
    (hpre : WaitEvent.signaled ∉ pre)
    (hpost : WaitEvent.signaled ∈ post) :
    WaitEvent.dispatchCall id item ∈
      (block async (pre ++ WaitEvent.dispatchCall id item :: post)).serviced ∧
    (block async (pre ++ WaitEvent.dispatchCall id item :: post)).returned = true ∧
    (block async (pre ++ WaitEvent.dispatchCall id item :: post)).result =
      some async.results := by
  have hr := coWaitPump_reaches pre (WaitEvent.dispatchCall id item) post hpre
    (by simp) hpost
  simp only [block, if_neg hs]
  exact ⟨hr.1, hr.2, by simp [hr.2]⟩

/-- Witness for C3: a pending operation, one serviced input event, then the
dispatch item, then the signal. -/
theorem block_pending_services_dispatch_witness :
    WaitEvent.dispatchCall 9 ⟨1, 2⟩ ∈
      (block (⟨AsyncStatus.Started, 42⟩ : IAsync Nat)
        ([WaitEvent.input] ++ WaitEvent.dispatchCall 9 ⟨1, 2⟩ :: [WaitEvent.signaled])).serviced ∧
    (block (⟨AsyncStatus.Started, 42⟩ : IAsync Nat)
        ([WaitEvent.input] ++ WaitEvent.dispatchCall 9 ⟨1, 2⟩ :: [WaitEvent.signaled])).returned =
      true ∧
    (block (⟨AsyncStatus.Started, 42⟩ : IAsync Nat)
        ([WaitEvent.input] ++ WaitEvent.dispatchCall 9 ⟨1, 2⟩ :: [WaitEvent.signaled])).result =
      some 42 :=
  block_pending_services_dispatch (⟨AsyncStatus.Started, 42⟩ : IAsync Nat)
    [WaitEvent.input] [WaitEvent.signaled] 9 ⟨1, 2⟩ (by decide) (by decide) (by decide)

theorem execSeq_append (a b : List LoopEvent) :
    execSeq (a ++ b) = execSeq a ++ execSeq b := by
  induction a with
  | nil => rfl
  | cons e rest ih => cases e <;> simp [execSeq, ih]

theorem freeSeq_append (a b : List LoopEvent) :
    freeSeq (a ++ b) = freeSeq a ++ freeSeq b := by
  induction a with
  | nil => rfl
  | cons e rest ih => cases e <;> simp [freeSeq, ih]

theorem postedSeq_append (a b : List GMsg) :
    postedSeq (a ++ b) = postedSeq a ++ postedSeq b := by
  induction a with
  | nil => rfl
  | cons g rest ih =>
      cases g with
      | msg m =>
          cases m with
          | window hwnd wm => simp [postedSeq, ih]
          | thread message id item =>
              by_cases hm : message = WM_APP_DISPATCH <;> simp [postedSeq, hm, ih]
      | quitMsg => simp [postedSeq, ih]
      | errMsg => simp [postedSeq, ih]

theorem execFreePaired_processMsg (m : Msg) (t : List LoopEvent) :
    execFreePaired (processMsg m ++ t) = execFreePaired t := by
  cases m with
  | window hwnd wm => simp [processMsg, execFreePaired]
  | thread message id item =>
      by_cases hm : message = WM_APP_DISPATCH <;> simp [processMsg, hm, execFreePaired]

theorem startLoop_execSeq (q : List GMsg)
    (hq : GMsg.quitMsg ∉ q) (he : GMsg.errMsg ∉ q) :
    execSeq (startLoop q).2 = postedSeq q := by
  induction q with
  | nil => rfl
  | cons g rest ih =>
      have hq2 : GMsg.quitMsg ∉ rest := fun hc => hq (List.mem_cons_of_mem g hc)
      have he2 : GMsg.errMsg ∉ rest := fun hc => he (List.mem_cons_of_mem g hc)
      cases g with
      | quitMsg => exact absurd (List.mem_cons_self _ _) hq
      | errMsg => exact absurd (List.mem_cons_self _ _) he
      | msg m =>
          cases m with
          | window hwnd wm =>
              simp [startLoop, processMsg, execSeq_append, execSeq, postedSeq, ih hq2 he2]
          | thread message id item =>
              by_cases hm : message = WM_APP_DISPATCH <;>
                simp [startLoop, processMsg, hm, execSeq_append, execSeq, postedSeq,
                  ih hq2 he2]

theorem startLoop_freeSeq (q : List GMsg)
    (hq : GMsg.quitMsg ∉ q) (he : GMsg.errMsg ∉ q) :
    freeSeq (startLoop q).2 = (postedSeq q).map Prod.fst := by
  induction q with
  | nil => rfl
  | cons g rest ih =>
      have hq2 : GMsg.quitMsg ∉ rest := fun hc => hq (List.mem_cons_of_mem g hc)
      have he2 : GMsg.errMsg ∉ rest := fun hc => he (List.mem_cons_of_mem g hc)
      cases g with
      | quitMsg => exact absurd (List.mem_cons_self _ _) hq
      | errMsg => exact absurd (List.mem_cons_self _ _) he
      | msg m =>
          cases m with
          | window hwnd wm =>
              simp [startLoop, processMsg, freeSeq_append, freeSeq, postedSeq, ih hq2 he2]
          | thread message id item =>
              by_cases hm : message = WM_APP_DISPATCH <;>
                simp [startLoop, processMsg, hm, freeSeq_append, freeSeq, postedSeq,
                  ih hq2 he2]

theorem startLoop_paired (q : List GMsg)
    (hq : GMsg.quitMsg ∉ q) (he : GMsg.errMsg ∉ q) :
    execFreePaired (startLoop q).2 = true := by
  induction q with
  | nil => rfl
  | cons g rest ih =>
      have hq2 : GMsg.quitMsg ∉ rest := fun hc => hq (List.mem_cons_of_mem g hc)
      have he2 : GMsg.errMsg ∉ rest := fun hc => he (List.mem_cons_of_mem g hc)
      cases g with
      | quitMsg => exact absurd (List.mem_cons_self _ _) hq
      | errMsg => exact absurd (List.mem_cons_self _ _) he
      | msg m =>
          have : (startLoop (GMsg.msg m :: rest)).2 = processMsg m ++ (startLoop rest).2 := rfl
          rw [this, execFreePaired_processMsg]
          exact ih hq2 he2

/-- C1: over any run of the `webview_start` loop that processes its whole queue
(no quit signal and no retrieval error among the processed outcomes), the
executed dispatch items are exactly the posted ones, in posting (FIFO) order,
interleaved on the single UI thread; the released items are exactly those
executed, each released immediately after its own execution and never
otherwise; and `webview_dispatch` appends its item at the queue's tail, so
posting order is arrival order. -/
theorem dispatch_exactly_once_fifo (q : List GMsg)
    (hq : GMsg.quitMsg ∉ q) (he : GMsg.errMsg ∉ q) :
    execSeq (startLoop q).2 = postedSeq q ∧
    freeSeq (startLoop q).2 = (postedSeq q).map Prod.fst ∧
    execFreePaired (startLoop q).2 = true ∧
    (∀ id data func, postedSeq (webview_dispatch q id data func) =
      postedSeq q ++ [(id, ⟨data, func⟩)]) := by
  refine ⟨startLoop_execSeq q hq he, startLoop_freeSeq q hq he, startLoop_paired q hq he, ?_⟩
  intro id data func
  simp [webview_dispatch, postedSeq_append, postedSeq]

/-- Witness for C1: a queue holding one window message and two dispatch
postings, processed in FIFO order with paired releases. -/
theorem dispatch_exactly_once_fifo_witness :
    execSeq (startLoop (webview_dispatch (webview_dispatch
        [GMsg.msg (Msg.window 5 WinMsg.size)] 7 1 2) 8 3 4)).2 =
      postedSeq (webview_dispatch (webview_dispatch
        [GMsg.msg (Msg.window 5 WinMsg.size)] 7 1 2) 8 3 4) ∧
    freeSeq (startLoop (webview_dispatch (webview_dispatch
        [GMsg.msg (Msg.window 5 WinMsg.size)] 7 1 2) 8 3 4)).2 =
      (postedSeq (webview_dispatch (webview_dispatch
        [GMsg.msg (Msg.window 5 WinMsg.size)] 7 1 2) 8 3 4)).map Prod.fst ∧
    execFreePaired (startLoop (webview_dispatch (webview_dispatch
        [GMsg.msg (Msg.window 5 WinMsg.size)] 7 1 2) 8 3 4)).2 = true ∧
    (∀ id data func, postedSeq (webview_dispatch (webview_dispatch (webview_dispatch
        [GMsg.msg (Msg.window 5 WinMsg.size)] 7 1 2) 8 3 4) id data func) =
      postedSeq (webview_dispatch (webview_dispatch
        [GMsg.msg (Msg.window 5 WinMsg.size)] 7 1 2) 8 3 4) ++ [(id, ⟨data, func⟩)]) :=
  dispatch_exactly_once_fifo (webview_dispatch (webview_dispatch
    [GMsg.msg (Msg.window 5 WinMsg.size)] 7 1 2) 8 3 4) (by decide) (by decide)

/-- C9 counterexample: it is not true that the `webview_start` loop returns
only when a quit signal was in its queue: on the queue `[GMsg.errMsg]`
(a `GetMessage` failure, `res == -1`) the loop takes the `break` and returns
although no quit signal was ever posted. -/
theorem start_returns_only_after_quit_cex :
    ¬ (∀ q : List GMsg, (startLoop q).1.isSome = true → GMsg.quitMsg ∈ q) := by
  intro h
  exact absurd (h [GMsg.errMsg] (by decide)) (by decide)

/-- C9 (amended): the loop returns only by retrieving a quit signal or by a
`GetMessage` failure (the `res == -1` break, which the spec calls fatal and
recovery-free); a return for reason `quitReceived` implies a quit signal was
in the queue; and after `webview_exit` appends its quit signal to any
error-free queue, the loop does return, with reason `quitReceived`. -/
theorem start_exit_paths :
    (∀ q : List GMsg, (startLoop q).1.isSome = true →
      GMsg.quitMsg ∈ q ∨ GMsg.errMsg ∈ q) ∧
    (∀ q : List GMsg, (startLoop q).1 = some ExitReason.quitReceived →
      GMsg.quitMsg ∈ q) ∧
    (∀ q : List GMsg, GMsg.errMsg ∉ q →
      (startLoop (webview_exit q)).1 = some ExitReason.quitReceived) := by
  refine ⟨?_, ?_, ?_⟩
  · intro q
    induction q with
    | nil => intro h; cases h
    | cons g rest ih =>
        intro h
        cases g with
        | quitMsg => exact Or.inl (List.mem_cons_self _ _)
        | errMsg => exact Or.inr (List.mem_cons_self _ _)
        | msg m =>
            rcases ih h with hl | hr
            · exact Or.inl (List.mem_cons_of_mem _ hl)
            · exact Or.inr (List.mem_cons_of_mem _ hr)
  · intro q
    induction q with
    | nil => intro h; cases h
    | cons g rest ih =>
        intro h
        cases g with
        | quitMsg => exact List.mem_cons_self _ _
        | errMsg => cases h
        | msg m => exact List.mem_cons_of_mem _ (ih h)
  · intro q
    induction q with
    | nil => intro _; rfl
    | cons g rest ih =>
        intro hne
        have hne2 : GMsg.errMsg ∉ rest := fun hc => hne (List.mem_cons_of_mem g hc)
        cases g with
        | quitMsg => rfl
        | errMsg => exact absurd (List.mem_cons_self _ _) hne
        | msg m => exact ih hne2

/-- Witness for the amended C9 on concrete queues. -/
theorem start_exit_paths_witness :
    (GMsg.quitMsg ∈ [GMsg.msg (Msg.window 5 WinMsg.size), GMsg.quitMsg] ∨
      GMsg.errMsg ∈ [GMsg.msg (Msg.window 5 WinMsg.size), GMsg.quitMsg]) ∧
    GMsg.quitMsg ∈ [GMsg.msg (Msg.window 5 WinMsg.size), GMsg.quitMsg] ∧
    (startLoop (webview_exit [GMsg.msg (Msg.window 5 WinMsg.size)])).1 =
      some ExitReason.quitReceived :=
  ⟨start_exit_paths.1 [GMsg.msg (Msg.window 5 WinMsg.size), GMsg.quitMsg] (by decide),
   start_exit_paths.2.1 [GMsg.msg (Msg.window 5 WinMsg.size), GMsg.quitMsg] (by decide),
   start_exit_paths.2.2 [GMsg.msg (Msg.window 5 WinMsg.size)] (by decide)⟩
